import Mathlib

set_option maxHeartbeats 1000000

/-! Shallow embedding of src/src/slave.c (KNoT modbus gateway, slave module).

Pure data is translated directly; the event-driven parts (timers, the modbus
driver, D-Bus) are modelled as explicit state passing: each C callback becomes
a function from the slave state (plus an environment describing the outcome of
the external driver calls) to the new state together with the externally
observable effects (armed timer delays, emitted property-change notifications,
teardown order traces). -/

/-- Tagged union of last-observed register values (the source value variants
set by source_set_value_bool / _byte / _u16 / _u32 / _u64).  All payloads are
kept as Nat; the width is implied by the variant. -/
inductive SourceValue where
  | vBool : Nat → SourceValue
  | vByte : Nat → SourceValue
  | vU16 : Nat → SourceValue
  | vU32 : Nat → SourceValue
  | vU64 : Nat → SourceValue
deriving DecidableEq

/-- One polled register (struct source).  source.c is not under src/; the
fields are the ones slave.c reaches through the source accessors
(source_get_path, source_get_address, source_get_signature,
source_get_interval) plus the spec's data model. -/
structure Source where
  path : String
  name : String
  sigType : String
  unitSym : String
  address : Nat
  interval : Nat
  persisted : Bool
  value : Option SourceValue
deriving DecidableEq

/-- State of one slave (struct slave).  The modbus handle and the l_io
channel are opaque tokens (Option Nat: none = NULL).  to_list models the
l_hashmap from source object path to the delay (ms) its polling timer is
currently armed with.  The storage ids and the driver pointer are not part of
the state the claims are about. -/
structure SlaveState where
  key : String
  id : Nat
  name : String
  path : String
  url : String
  modbus : Option Nat
  io : Option Nat
  source_list : List Source
  to_list : List (String × Nat)
deriving DecidableEq

/-- Modelled from the spec: source_create lives in source.c, which is not
under src/.  It builds a source object with the given fields and returns it;
the object path is derived from the parent slave path, and the last observed
value is absent until the first successful read.  The persisted flag records
whether the definition is written to durable storage. -/
def source_create (parent nm ty un : String) (address interval : Nat)
    (persisted : Bool) : Source :=
  { path := parent ++ "/source_" ++ toString address
    name := nm
    sigType := ty
    unitSym := un
    address := address
    interval := interval
    persisted := persisted
    value := none }

/-- L_BE32_TO_CPU on a little-endian host: reverse the four bytes of a
32-bit value. -/
def bswap32 (x : Nat) : Nat :=
  (x % 256) * 2 ^ 24 + (x / 2 ^ 8 % 256) * 2 ^ 16 +
    (x / 2 ^ 16 % 256) * 2 ^ 8 + x / 2 ^ 24 % 256

/-- L_BE64_TO_CPU on a little-endian host: reverse the eight bytes of a
64-bit value. -/
def bswap64 (x : Nat) : Nat :=
  (x % 256) * 2 ^ 56 + (x / 2 ^ 8 % 256) * 2 ^ 48 +
    (x / 2 ^ 16 % 256) * 2 ^ 40 + (x / 2 ^ 24 % 256) * 2 ^ 32 +
    (x / 2 ^ 32 % 256) * 2 ^ 24 + (x / 2 ^ 40 % 256) * 2 ^ 16 +
    (x / 2 ^ 48 % 256) * 2 ^ 8 + x / 2 ^ 56 % 256

/-- polling_to_expired: one polling timer expiry.  res is the outcome of the
driver read selected by the signature (none models ret == -1, some raw a
successful read of the raw wire value).  On success the value is stored —
with big-endian-to-host conversion for the u32/u64 cases only — on failure
the source is left untouched; either way the timer is re-armed with the
source's current interval (the second component). -/
def polling_to_expired (src : Source) (res : Option Nat) : Source × Nat :=
  match res with
  | none => (src, src.interval)
  | some raw =>
    let updated :=
      match src.sigType.toList with
      | [] => src
      | c :: _ =>
        if c = 'b' then { src with value := some (SourceValue.vBool raw) }
        else if c = 'y' then { src with value := some (SourceValue.vByte raw) }
        else if c = 'q' then { src with value := some (SourceValue.vU16 raw) }
        else if c = 'u' then
          { src with value := some (SourceValue.vU32 (bswap32 raw)) }
        else if c = 't' then
          { src with value := some (SourceValue.vU64 (bswap64 raw)) }
        else src
    (updated, src.interval)

/-- Timer-map lookup (l_hashmap_lookup keyed by the source object path). -/
def lookupTimer : List (String × Nat) → String → Option Nat
  | [], _ => none
  | e :: tl, k => if e.1 == k then some e.2 else lookupTimer tl k

/-- Re-arm the timer stored under key k with delay n (l_timeout_modify_ms on
the timer found in the map; keys are unique, so the first hit is the
timer). -/
def retargetTimer (k : String) (n : Nat) : List (String × Nat) → List (String × Nat)
  | [] => []
  | e :: tl => if e.1 == k then (e.1, n) :: tl else e :: retargetTimer k n tl

/-- polling_start: if a timer for this source's path already exists, retarget
it to the source's interval (l_timeout_modify_ms); otherwise create a new
timer armed with the interval and insert it into the map. -/
def polling_start (s : SlaveState) (src : Source) : SlaveState :=
  match lookupTimer s.to_list src.path with
  | some _ =>
    { s with to_list := retargetTimer src.path src.interval s.to_list }
  | none =>
    { s with to_list := (src.path, src.interval) :: s.to_list }

/-- l_queue_foreach(slave->source_list, polling_start, slave). -/
def polling_start_all (s : SlaveState) : SlaveState :=
  s.source_list.foldl polling_start s

/-- Outcomes of the external calls made during one connect attempt in
enable_slave: driver->create, modbus_set_slave, modbus_connect, l_io_new. -/
structure ConnEnv where
  createHandle : Option Nat
  setOk : Bool
  connectOk : Bool
  ioNew : Option Nat
deriving DecidableEq

/-- Result of one enable_slave invocation: the new slave state, the delay the
retry timeout was re-armed with (none if it was not re-armed), and the number
of Online property-changed notifications emitted. -/
structure EnableOut where
  state : SlaveState
  retry : Option Nat
  notices : Nat
deriving DecidableEq

/-- enable_slave: one connect attempt.  Returns immediately if already
connected.  On create failure, set-slave failure, connect failure or io
registration failure the handle is torn down and the retry timeout is
re-armed with 5 seconds; on full success the io channel is registered, every
existing source's polling timer is started, and one Online notification is
emitted. -/
def enable_slave (s : SlaveState) (env : ConnEnv) : EnableOut :=
  if s.modbus.isSome then ⟨s, none, 0⟩
  else
    match env.createHandle with
    | none => ⟨s, some 5, 0⟩
    | some h =>
      if env.setOk = false then ⟨{ s with modbus := none }, some 5, 0⟩
      else if env.connectOk then
        match env.ioNew with
        | none => ⟨{ s with modbus := none }, some 5, 0⟩
        | some iox =>
          ⟨polling_start_all { s with modbus := some h, io := some iox },
            none, 1⟩
      else ⟨{ s with modbus := none }, some 5, 0⟩

/-- destroy_handler (the disconnect-destroy callback of the io channel):
re-arms the connection retry timeout with 5 seconds
(l_timeout_modify(slave->poll_to, 5)).  The second component is the armed
delay. -/
def destroy_handler (s : SlaveState) : SlaveState × Nat :=
  (s, 5)

/-- Externally observable teardown events, in the order the corresponding
calls are made in slave.c. -/
inductive Ev where
  | destroySources : Ev
  | destroyTimers : Ev
  | destroyModbus : Ev
  | destroyIo : Ev
  | removeRetryTimer : Ev
  | notifyOnline : Ev
deriving DecidableEq, BEq

/-- disconnected_cb: destroys the whole timer map (replacing it with a fresh
empty one), then destroys the modbus handle, then the io channel, then emits
one Online property-changed notification.  The trace records that order. -/
def disconnected_cb (s : SlaveState) : SlaveState × List Ev :=
  ({ s with to_list := [], modbus := none, io := none },
    [Ev.destroyTimers, Ev.destroyModbus, Ev.destroyIo, Ev.notifyOnline])

/-- slave_free: destroys sources, then the timer map, then (if present) the
io channel, then (if present) the modbus handle, then removes the retry
timeout.  Returns the teardown trace. -/
def slave_free (s : SlaveState) : List Ev :=
  [Ev.destroySources, Ev.destroyTimers]
    ++ (if s.io.isSome then [Ev.destroyIo] else [])
    ++ (if s.modbus.isSome then [Ev.destroyModbus] else [])
    ++ [Ev.removeRetryTimer]

/-- Whether every occurrence of x is before every occurrence of y in the
trace (each event occurs at most once in the traces here); vacuously true
when either is absent. -/
def precedes (x y : Ev) (tr : List Ev) : Bool :=
  match tr.findIdx? (fun e => e == x), tr.findIdx? (fun e => e == y) with
  | some i, some j => decide (i < j)
  | _, _ => true

/-- property_get_online: Online is reported as (slave->modbus != NULL). -/
def property_get_online (s : SlaveState) : Bool :=
  s.modbus.isSome

/-- C strcmp on NUL-free char lists: the sign of the difference of the first
mismatching characters (compared as unsigned values). -/
def strcmp : List Char → List Char → Int
  | [], [] => 0
  | [], b :: _ => 0 - (b.toNat : Int)
  | a :: _, [] => (a.toNat : Int)
  | a :: as, b :: bs =>
    if a = b then strcmp as bs else (a.toNat : Int) - (b.toNat : Int)

/-- The two modbus driver variants (extern struct modbus_driver tcp, rtu). -/
inductive ModbusDrv where
  | tcp : ModbusDrv
  | rtu : ModbusDrv
deriving DecidableEq

/-- The driver-selection logic of slave_create, exactly as written:
strcmp("tcp://", url) < 0 selects tcp, else strcmp("serial://", url) < 0
selects rtu, else the create fails. -/
def slave_create_driver (url : String) : Option ModbusDrv :=
  if strcmp "tcp://".toList url.toList < 0 then some ModbusDrv.tcp
  else if strcmp "serial://".toList url.toList < 0 then some ModbusDrv.rtu
  else none

/-- Is the first list an initial segment of the second. -/
def leadsWith : List Char → List Char → Bool
  | [], _ => true
  | _ :: _, [] => false
  | a :: as, b :: bs => a == b && leadsWith as bs

/-- Driver selection as the spec words it (refinement reference): exact URL
scheme prefix matching on tcp:// and serial://, failing otherwise. -/
def spec_driver_selection (url : String) : Option ModbusDrv :=
  if leadsWith "tcp://".toList url.toList then some ModbusDrv.tcp
  else if leadsWith "serial://".toList url.toList then some ModbusDrv.rtu
  else none

/-- Value of one hex digit character, as accepted by sscanf %x. -/
def hexVal (c : Char) : Option Nat :=
  if '0' ≤ c ∧ c ≤ '9' then some (c.toNat - 48)
  else if 'a' ≤ c ∧ c ≤ 'f' then some (c.toNat - 87)
  else if 'A' ≤ c ∧ c ≤ 'F' then some (c.toNat - 55)
  else none

/-- Scan at most fuel hex digit characters (sscanf %x with a field width),
returning the accumulated value and the number of characters consumed. -/
def scanHex (cs : List Char) (fuel : Nat) (acc : Nat) : Nat × Nat :=
  match fuel, cs with
  | 0, _ => (acc, 0)
  | _, [] => (acc, 0)
  | f + 1, c :: rest =>
    match hexVal c with
    | none => (acc, 0)
    | some d =>
      let r := scanHex rest f (acc * 16 + d)
      (r.1, r.2 + 1)

/-- sscanf(address, "0x%04x", &uaddr) on whitespace-free input: literal 0x,
then one to four hex digits; fails (returns != 1) when the prefix or the
first digit is missing. -/
def parseAddr (s : String) : Option Nat :=
  match s.toList with
  | '0' :: 'x' :: rest =>
    let r := scanHex rest 4 0
    if r.2 = 0 then none else some r.1
  | _ => none

/-- Value of one hex digit as a character (lowercase, as printf %x emits). -/
def hexDigitChar (n : Nat) : Char :=
  if n < 10 then Char.ofNat (48 + n) else Char.ofNat (87 + n)

/-- Modelled from the spec: the persistence side of source_create (source.c,
not under src/) writes the source address as a zero-padded 4-hex-digit string
prefixed 0x (printf format 0x%04x, for addresses below 2^16). -/
def formatAddr (a : Nat) : String :=
  String.mk ['0', 'x', hexDigitChar (a / 4096 % 16), hexDigitChar (a / 256 % 16),
    hexDigitChar (a / 16 % 16), hexDigitChar (a % 16)]

/-- create_source_from_storage: replay one stored source row.  The address
string is parsed with sscanf("0x%04x"); on parse failure the row is skipped;
otherwise a source is created with persisted = false and pushed onto the
slave's source list. -/
def create_source_from_storage (s : SlaveState) (address nm ty un : String)
    (interval : Nat) : SlaveState :=
  match parseAddr address with
  | none => s
  | some a =>
    { s with source_list :=
        source_create s.path nm ty un a interval false :: s.source_list }

/-- A D-Bus variant value as used in the AddSource dictionary: either a
string ("s") or a uint16 ("q"). -/
inductive DictValue where
  | vStr : String → DictValue
  | vU16 : Nat → DictValue
deriving DecidableEq

/-- Reply of a D-Bus method handler. -/
inductive Reply where
  | invalidArgs : Reply
  | okPath : String → Reply
  | okEmpty : Reply
deriving DecidableEq

/-- Accumulator of the AddSource argument-parsing loop: the local variables
name/type/unit/address/interval of method_source_add with their initial
values (address = 0xffff sentinel, interval = 1000 ms). -/
structure ParseAcc where
  name : Option String
  typ : Option String
  unitSym : Option String
  address : Nat
  interval : Nat
deriving DecidableEq

/-- The initial values of the parsing accumulator. -/
def initAcc : ParseAcc :=
  { name := none, typ := none, unitSym := none, address := 65535,
    interval := 1000 }

/-- One iteration of the AddSource dictionary loop: known keys require the
matching variant type (get_variant failure rejects), any other key rejects
the whole request. -/
def parseEntry (acc : ParseAcc) (e : String × DictValue) : Option ParseAcc :=
  if e.1 = "Name" then
    match e.2 with
    | DictValue.vStr v => some { acc with name := some v }
    | _ => none
  else if e.1 = "Type" then
    match e.2 with
    | DictValue.vStr v => some { acc with typ := some v }
    | _ => none
  else if e.1 = "Unit" then
    match e.2 with
    | DictValue.vStr v => some { acc with unitSym := some v }
    | _ => none
  else if e.1 = "Address" then
    match e.2 with
    | DictValue.vU16 v => some { acc with address := v }
    | _ => none
  else if e.1 = "PollingInterval" then
    match e.2 with
    | DictValue.vU16 v => some { acc with interval := v }
    | _ => none
  else none

/-- The whole AddSource dictionary loop. -/
def parseDict (acc : ParseAcc) : List (String × DictValue) → Option ParseAcc
  | [] => some acc
  | e :: es =>
    match parseEntry acc e with
    | none => none
    | some acc2 => parseDict acc2 es

/-- sscanf(type, "%[byqut]1s", signature) == 1: the first character of the
type string is one of b, y, q, u, t (combined with the strlen(type) == 1
check this pins the signature to exactly one permitted character). -/
def typeSigOk (ty : String) : Bool :=
  match ty.toList with
  | [] => false
  | c :: _ => c == 'b' || c == 'y' || c == 'q' || c == 'u' || c == 't'

/-- method_source_add: parse the dictionary, validate (name present, address
given i.e. not the 0xffff sentinel, type present and of length 1, unit
present and in the unit catalog, signature character permitted, address not
already claimed by a sibling source), then create the source with
persisted = true, push it onto the source list, and start its polling timer
when the io channel is present.  hasUnit models
storage_has_unit(units_storage, "SI", hex(unit)). -/
def method_source_add (s : SlaveState) (hasUnit : String → Bool)
    (entries : List (String × DictValue)) : Reply × SlaveState :=
  match parseDict initAcc entries with
  | none => (Reply.invalidArgs, s)
  | some acc =>
    match acc.name, acc.typ, acc.unitSym with
    | some nm, some ty, some un =>
      if acc.address = 65535 ∨ ty.length ≠ 1 then (Reply.invalidArgs, s)
      else if hasUnit un then
        if typeSigOk ty then
          if s.source_list.any (fun x => x.address == acc.address) then
            (Reply.invalidArgs, s)
          else
            let src := source_create s.path nm ty un acc.address acc.interval true
            let s1 : SlaveState := { s with source_list := src :: s.source_list }
            if s1.io.isSome then (Reply.okPath src.path, polling_start s1 src)
            else (Reply.okPath src.path, s1)
        else (Reply.invalidArgs, s)
      else (Reply.invalidArgs, s)
    | _, _, _ => (Reply.invalidArgs, s)

/-- l_queue_remove_if: remove the first element satisfying the predicate. -/
def removeFirst (p : Source → Bool) : List Source → List Source
  | [] => []
  | x :: xs => if p x then xs else x :: removeFirst p xs

/-- method_source_remove: remove the source with the given object path from
the source list (the timer map is not touched). -/
def method_source_remove (s : SlaveState) (opath : String) :
    Reply × SlaveState :=
  match s.source_list.find? (fun src => src.path == opath) with
  | none => (Reply.invalidArgs, s)
  | some _ =>
    let sl := removeFirst (fun src => src.path == opath) s.source_list
    (Reply.okEmpty, { s with source_list := sl })

/-- One polling expiry seen at the slave level: the timer's bond names one
source by path; the source is updated via polling_to_expired and the timer is
re-armed with the returned delay. -/
def poll_expire (s : SlaveState) (spath : String) (res : Option Nat) :
    SlaveState :=
  match s.source_list.find? (fun src => src.path == spath) with
  | none => s
  | some src =>
    let sl := s.source_list.map
      (fun x => if x.path == spath then (polling_to_expired x res).1 else x)
    let tl := retargetTimer spath (polling_to_expired src res).2 s.to_list
    { s with source_list := sl, to_list := tl }

/-- The state slave_create leaves a slave in: no modbus handle, no io
channel, empty timer map; srcs are the sources replayed from storage (empty
for a brand-new slave). -/
def init_slave (key : String) (id : Nat) (nm url : String)
    (srcs : List Source) : SlaveState :=
  { key := key, id := id, name := nm, path := "/slave_" ++ key, url := url,
    modbus := none, io := none, source_list := srcs, to_list := [] }

/-- The event-loop callbacks that can change one slave's state. -/
inductive Step : SlaveState → SlaveState → Prop where
  | enable (s : SlaveState) (env : ConnEnv) : Step s (enable_slave s env).state
  | disconnect (s : SlaveState) : Step s (disconnected_cb s).1
  | sourceAdd (s : SlaveState) (hasUnit : String → Bool)
      (entries : List (String × DictValue)) :
      Step s (method_source_add s hasUnit entries).2
  | sourceRemove (s : SlaveState) (opath : String) :
      Step s (method_source_remove s opath).2
  | poll (s : SlaveState) (spath : String) (res : Option Nat) :
      Step s (poll_expire s spath res)

/-- Slave states reachable from slave_create through the event-loop
callbacks. -/
inductive Reachable : SlaveState → Prop where
  | init (key : String) (id : Nat) (nm url : String) (srcs : List Source) :
      Reachable (init_slave key id nm url srcs)
  | step {s t : SlaveState} : Reachable s → Step s t → Reachable t

/-- The connection-state invariant: the timer map is populated only while the
modbus handle is present, and the io channel is present exactly when the
handle is. -/
def slaveInv (s : SlaveState) : Prop :=
  (s.to_list ≠ [] → s.modbus.isSome = true) ∧ s.io.isSome = s.modbus.isSome

/-! Helper lemmas. -/

theorem polling_start_modbus (s : SlaveState) (src : Source) :
    (polling_start s src).modbus = s.modbus := by
  unfold polling_start
  split <;> rfl

theorem polling_start_io (s : SlaveState) (src : Source) :
    (polling_start s src).io = s.io := by
  unfold polling_start
  split <;> rfl

theorem polling_start_source_list (s : SlaveState) (src : Source) :
    (polling_start s src).source_list = s.source_list := by
  unfold polling_start
  split <;> rfl

theorem foldl_polling_start_modbus (l : List Source) (s : SlaveState) :
    (l.foldl polling_start s).modbus = s.modbus := by
  induction l generalizing s with
  | nil => rfl
  | cons a l ih => rw [List.foldl_cons, ih, polling_start_modbus]

theorem foldl_polling_start_io (l : List Source) (s : SlaveState) :
    (l.foldl polling_start s).io = s.io := by
  induction l generalizing s with
  | nil => rfl
  | cons a l ih => rw [List.foldl_cons, ih, polling_start_io]

theorem hexVal_hexDigitChar : ∀ n, n < 16 → hexVal (hexDigitChar n) = some n := by
  decide

theorem parseAddr_formatAddr (a : Nat) (ha : a < 65536) :
    parseAddr (formatAddr a) = some a := by
  have h3 := hexVal_hexDigitChar (a / 4096 % 16) (Nat.mod_lt _ (by norm_num))
  have h2 := hexVal_hexDigitChar (a / 256 % 16) (Nat.mod_lt _ (by norm_num))
  have h1 := hexVal_hexDigitChar (a / 16 % 16) (Nat.mod_lt _ (by norm_num))
  have h0 := hexVal_hexDigitChar (a % 16) (Nat.mod_lt _ (by norm_num))
  simp only [parseAddr, formatAddr, String.toList, scanHex, h3, h2, h1, h0]
  norm_num
  omega

/-! Claim theorems. -/

/-- C2: on every connection failure path — transport-handle creation failure,
unit-id assignment failure, connect failure, io-registration failure — and
after a post-online disconnect (destroy_handler), the slave's retry timeout
is re-armed with the fixed 5-second delay; there is no exponential growth and
no retry-count cutoff (the delay is the constant 5 for every state). -/
theorem c2_fixed_retry_backoff (s : SlaveState) (env : ConnEnv)
    (hoff : s.modbus = none)
    (hfail : env.createHandle = none ∨ env.setOk = false
      ∨ env.connectOk = false ∨ env.ioNew = none) :
    (enable_slave s env).retry = some 5 ∧ (destroy_handler s).2 = 5 := by
  rcases env with ⟨ch, so, co, ion⟩
  cases ch <;> cases so <;> cases co <;> cases ion <;>
    simp_all [enable_slave, destroy_handler]

/-- Witness for C2 at a concrete offline state with a failing driver
create. -/
theorem c2_witness :
    (enable_slave (init_slave "k" 1 "n" "tcp://h:1" [])
        ⟨none, true, true, none⟩).retry = some 5
    ∧ (destroy_handler (init_slave "k" 1 "n" "tcp://h:1" [])).2 = 5 :=
  c2_fixed_retry_backoff _ _ rfl (Or.inl rfl)

/-- C3: on a polling expiry whose read fails (driver returned -1, res = none)
the source — in particular its last-observed value — is left unchanged, and
for every read outcome the timer is re-armed with the source's current
polling interval, so a failing register keeps being polled. -/
theorem c3_poll_failure_keeps_polling (src : Source) :
    (polling_to_expired src none).1 = src
    ∧ ∀ res : Option Nat, (polling_to_expired src res).2 = src.interval := by
  refine ⟨rfl, ?_⟩
  intro res
  cases res <;> rfl

/-- C4: the URL-scheme comparison in slave_create uses strcmp ordering, not a
prefix test: "udp://x" (matching neither scheme) selects the tcp driver
instead of failing, and the exact string "tcp://" selects the serial driver;
the spec's exact-prefix selection (spec_driver_selection) disagrees at both
inputs, while genuine tcp://host and serial://dev URLs still select the
intended drivers. -/
theorem c4_url_scheme_divergence :
    slave_create_driver "udp://x" = some ModbusDrv.tcp
    ∧ spec_driver_selection "udp://x" = none
    ∧ slave_create_driver "tcp://" = some ModbusDrv.rtu
    ∧ spec_driver_selection "tcp://" = some ModbusDrv.tcp
    ∧ slave_create_driver "tcp://h:1" = some ModbusDrv.tcp
    ∧ slave_create_driver "serial://dev/ttyUSB0" = some ModbusDrv.rtu := by
  refine ⟨by decide, by decide, by decide, by decide, by decide, by decide⟩

/-- C7: the value codec dispatches on the one-character type signature; the
32-bit ('u') and 64-bit ('t') unsigned reads are converted from big-endian
wire order to host order (byte swap on the little-endian host) before being
stored, while boolean ('b'), byte ('y') and 16-bit ('q') values are stored
exactly as read. -/
theorem c7_endianness_dispatch (src : Source) (raw : Nat) :
    (polling_to_expired { src with sigType := "u" } (some raw)).1.value
        = some (SourceValue.vU32 (bswap32 raw))
    ∧ (polling_to_expired { src with sigType := "t" } (some raw)).1.value
        = some (SourceValue.vU64 (bswap64 raw))
    ∧ (polling_to_expired { src with sigType := "b" } (some raw)).1.value
        = some (SourceValue.vBool raw)
    ∧ (polling_to_expired { src with sigType := "y" } (some raw)).1.value
        = some (SourceValue.vByte raw)
    ∧ (polling_to_expired { src with sigType := "q" } (some raw)).1.value
        = some (SourceValue.vU16 raw) :=
  ⟨rfl, rfl, rfl, rfl, rfl⟩

/-- C8 counterexample: in the disconnect callback the modbus handle is
destroyed before the io channel is torn down, so "io before handle on every
disconnect path" is false at a connected state. -/
theorem c8_counterexample :
    precedes Ev.destroyIo Ev.destroyModbus
      (disconnected_cb
        { init_slave "k" 1 "n" "tcp://h:1" [] with
            modbus := some 1, io := some 1,
            to_list := [("/slave_k/source_16", 1000)] }).2 = false :=
  rfl

/-- C8 amended: in final teardown (slave_free) the io channel is destroyed
before the modbus handle, but in the disconnect callback the order is the
reverse: the handle is destroyed before the io channel (both within the same
callback). -/
theorem c8_teardown_order (s : SlaveState) :
    precedes Ev.destroyIo Ev.destroyModbus (slave_free s) = true
    ∧ precedes Ev.destroyModbus Ev.destroyIo (disconnected_cb s).2 = true := by
  constructor
  · unfold slave_free precedes
    cases h : s.io <;> cases h2 : s.modbus <;> rfl
  · rfl

/-- C9: storage round-trip.  An address below 2^16 written as the zero-padded
4-hex-digit 0x string is parsed back by create_source_from_storage to the
same value, and the replayed source carries the same address, type
signature, unit and interval, with its persisted flag false so it is never
re-persisted on replay. -/
theorem c9_storage_roundtrip (s : SlaveState) (a : Nat) (nm ty un : String)
    (interval : Nat) (ha : a < 65536) :
    parseAddr (formatAddr a) = some a
    ∧ create_source_from_storage s (formatAddr a) nm ty un interval
        = { s with source_list :=
              source_create s.path nm ty un a interval false :: s.source_list }
    ∧ (source_create s.path nm ty un a interval false).address = a
    ∧ (source_create s.path nm ty un a interval false).sigType = ty
    ∧ (source_create s.path nm ty un a interval false).unitSym = un
    ∧ (source_create s.path nm ty un a interval false).interval = interval
    ∧ (source_create s.path nm ty un a interval false).persisted = false := by
  have hp := parseAddr_formatAddr a ha
  refine ⟨hp, ?_, rfl, rfl, rfl, rfl, rfl⟩
  unfold create_source_from_storage
  rw [hp]

/-- Witness for C9 at address 0x0010. -/
theorem c9_witness :
    parseAddr (formatAddr 16) = some 16
    ∧ (source_create (init_slave "k" 1 "n" "u" []).path "Temp1" "q" "C"
        16 2000 false).persisted = false := by
  have h := c9_storage_roundtrip (init_slave "k" 1 "n" "u" []) 16 "Temp1" "q"
    "C" 2000 (by norm_num)
  exact ⟨h.1, h.2.2.2.2.2.2⟩

theorem lookupTimer_retarget (k : String) (n : Nat) :
    ∀ tl : List (String × Nat), (lookupTimer tl k).isSome = true →
      lookupTimer (retargetTimer k n tl) k = some n := by
  intro tl
  induction tl with
  | nil => intro h; simp [lookupTimer] at h
  | cons e tl ih =>
    intro h
    by_cases he : (e.1 == k) = true
    · simp [lookupTimer, retargetTimer, he]
    · have he2 : (e.1 == k) = false := by simpa using he
      simp only [lookupTimer, retargetTimer, he2, if_false, Bool.false_eq_true] at h ⊢
      exact ih h

theorem lookupTimer_polling_start (s : SlaveState) (src : Source) :
    lookupTimer (polling_start s src).to_list src.path = some src.interval := by
  unfold polling_start
  cases h : lookupTimer s.to_list src.path with
  | none => dsimp only; simp [lookupTimer]
  | some v => dsimp only; exact lookupTimer_retarget _ _ _ (by simp [h])

theorem parseEntry_interval (acc : ParseAcc) (e : String × DictValue)
    (h : e.1 ≠ "PollingInterval") (acc2 : ParseAcc)
    (hp : parseEntry acc e = some acc2) : acc2.interval = acc.interval := by
  unfold parseEntry at hp
  split_ifs at hp with h1 h2 h3 h4
  · cases hv : e.2 <;> rw [hv] at hp <;> cases hp <;> rfl
  · cases hv : e.2 <;> rw [hv] at hp <;> cases hp <;> rfl
  · cases hv : e.2 <;> rw [hv] at hp <;> cases hp <;> rfl
  · cases hv : e.2 <;> rw [hv] at hp <;> cases hp <;> rfl

theorem parseDict_interval :
    ∀ (es : List (String × DictValue)) (acc acc2 : ParseAcc),
      (∀ e ∈ es, e.1 ≠ "PollingInterval") →
      parseDict acc es = some acc2 → acc2.interval = acc.interval := by
  intro es
  induction es with
  | nil =>
    intro acc acc2 _ hp
    unfold parseDict at hp
    cases hp
    rfl
  | cons e es ih =>
    intro acc acc2 hk hp
    unfold parseDict at hp
    cases hpe : parseEntry acc e with
    | none => rw [hpe] at hp; cases hp
    | some a2 =>
      rw [hpe] at hp
      have h1 := ih a2 acc2 (fun x hx => hk x (List.mem_cons_of_mem e hx)) hp
      have h2 := parseEntry_interval acc e (hk e (List.mem_cons_self e es)) a2 hpe
      rw [h1, h2]

theorem parseEntry_badkey (acc : ParseAcc) (e : String × DictValue)
    (h : e.1 ∉ (["Name", "Type", "Unit", "Address", "PollingInterval"] : List String)) :
    parseEntry acc e = none := by
  simp only [List.mem_cons, List.mem_singleton, not_or] at h
  unfold parseEntry
  split_ifs <;> simp_all

theorem parseDict_badkey :
    ∀ (es : List (String × DictValue)) (acc : ParseAcc),
      (∃ e ∈ es, e.1 ∉ (["Name", "Type", "Unit", "Address", "PollingInterval"] : List String)) →
      parseDict acc es = none := by
  intro es
  induction es with
  | nil => intro acc h; rcases h with ⟨e, he, _⟩; cases he
  | cons e es ih =>
    intro acc h
    unfold parseDict
    rcases h with ⟨e2, he2, hbad⟩
    rcases List.mem_cons.mp he2 with rfl | hmem
    · rw [parseEntry_badkey acc e2 hbad]
    · cases hpe : parseEntry acc e with
      | none => rfl
      | some a2 => exact ih a2 ⟨e2, hmem, hbad⟩

theorem msa_modbus (s : SlaveState) (hu : String → Bool)
    (es : List (String × DictValue)) :
    ((method_source_add s hu es).2).modbus = s.modbus := by
  unfold method_source_add
  split
  · rfl
  · split <;> try rfl
    split_ifs <;> try rfl
    dsimp only
    split <;> simp [polling_start_modbus]

theorem msa_io (s : SlaveState) (hu : String → Bool)
    (es : List (String × DictValue)) :
    ((method_source_add s hu es).2).io = s.io := by
  unfold method_source_add
  split
  · rfl
  · split <;> try rfl
    split_ifs <;> try rfl
    dsimp only
    split <;> simp [polling_start_io]

theorem msa_to_list_io_none (s : SlaveState) (hu : String → Bool)
    (es : List (String × DictValue)) (h : s.io = none) :
    ((method_source_add s hu es).2).to_list = s.to_list := by
  unfold method_source_add
  split
  · rfl
  · split <;> try rfl
    split_ifs <;> try rfl
    dsimp only
    split <;> simp_all

theorem msa_source_list_shape (s : SlaveState) (hu : String → Bool)
    (es : List (String × DictValue)) :
    ((method_source_add s hu es).2).source_list = s.source_list
    ∨ ∃ acc nm ty un, parseDict initAcc es = some acc
        ∧ ((method_source_add s hu es).2).source_list
            = source_create s.path nm ty un acc.address acc.interval true
                :: s.source_list := by
  unfold method_source_add
  split
  · exact Or.inl rfl
  case _ acc heq =>
    split <;> try exact Or.inl rfl
    case _ nm ty un hn ht hun =>
      split_ifs <;> try exact Or.inl rfl
      dsimp only
      split
      · exact Or.inr ⟨acc, nm, ty, un, heq, by simp [polling_start_source_list]⟩
      · exact Or.inr ⟨acc, nm, ty, un, heq, rfl⟩

theorem msr_fields (s : SlaveState) (p : String) :
    ((method_source_remove s p).2).modbus = s.modbus
    ∧ ((method_source_remove s p).2).io = s.io
    ∧ ((method_source_remove s p).2).to_list = s.to_list := by
  unfold method_source_remove
  split <;> exact ⟨rfl, rfl, rfl⟩

theorem slaveInv_init (key : String) (id : Nat) (nm url : String)
    (srcs : List Source) : slaveInv (init_slave key id nm url srcs) := by
  constructor
  · intro h
    exact absurd rfl h
  · rfl

theorem slaveInv_enable (s : SlaveState) (env : ConnEnv) (h : slaveInv s) :
    slaveInv (enable_slave s env).state := by
  obtain ⟨h1, h2⟩ := h
  unfold enable_slave
  by_cases hm : s.modbus.isSome = true
  · rw [if_pos hm]
    exact ⟨h1, h2⟩
  · have hmf : s.modbus.isSome = false := by simpa using hm
    rw [if_neg hm]
    cases hch : env.createHandle with
    | none => exact ⟨h1, h2⟩
    | some hdl =>
      dsimp only
      by_cases hso : env.setOk = false
      · rw [if_pos hso]
        constructor
        · intro hne
          exact absurd (h1 hne) (by simp [hmf])
        · rw [h2, hmf]
          rfl
      · rw [if_neg hso]
        by_cases hco : env.connectOk = true
        · rw [if_pos hco]
          cases hio : env.ioNew with
          | none =>
            dsimp only
            constructor
            · intro hne
              exact absurd (h1 hne) (by simp [hmf])
            · rw [h2, hmf]
              rfl
          | some iox =>
            dsimp only
            constructor
            · intro _
              unfold polling_start_all
              rw [foldl_polling_start_modbus]
              rfl
            · unfold polling_start_all
              rw [foldl_polling_start_io, foldl_polling_start_modbus]
              rfl
        · rw [if_neg hco]
          constructor
          · intro hne
            exact absurd (h1 hne) (by simp [hmf])
          · rw [h2, hmf]
            rfl

theorem slaveInv_step (s t : SlaveState) (h : slaveInv s) (hs : Step s t) :
    slaveInv t := by
  cases hs with
  | enable env => exact slaveInv_enable s env h
  | disconnect => exact ⟨fun hne => absurd rfl hne, rfl⟩
  | sourceAdd hu es =>
    obtain ⟨h1, h2⟩ := h
    constructor
    · intro hne
      rw [msa_modbus]
      by_cases hio : s.io.isSome = true
      · rw [← h2]
        exact hio
      · have hiof : s.io = none := Option.not_isSome_iff_eq_none.mp (by simpa using hio)
        rw [msa_to_list_io_none s hu es hiof] at hne
        exact h1 hne
    · rw [msa_modbus, msa_io]
      exact h2
  | sourceRemove p =>
    obtain ⟨h1, h2⟩ := h
    refine ⟨?_, ?_⟩
    · intro hne
      rw [(msr_fields s p).2.2] at hne
      rw [(msr_fields s p).1]
      exact h1 hne
    · rw [(msr_fields s p).1, (msr_fields s p).2.1]
      exact h2
  | poll p res =>
    obtain ⟨h1, h2⟩ := h
    unfold poll_expire
    cases hf : s.source_list.find? (fun src => src.path == p) with
    | none =>
      exact ⟨h1, h2⟩
    | some src =>
      dsimp only
      constructor
      · intro hne
        apply h1
        intro hnil
        apply hne
        rw [hnil]
        rfl
      · exact h2

theorem inv_reachable (s : SlaveState) (h : Reachable s) : slaveInv s := by
  induction h with
  | init k i n u srcs => exact slaveInv_init k i n u srcs
  | step hr hs ih => exact slaveInv_step _ _ ih hs

/-- C1: over every reachable slave state, the Online property reported by
property_get_online is exactly the non-nullness of the modbus handle; the
timer map is populated only while the handle is present; and the disconnect
callback clears the handle, the io channel and the whole timer map and emits
exactly one Online change notification within the same callback. -/
theorem c1_online_iff_handle (s : SlaveState) (h : Reachable s) :
    property_get_online s = s.modbus.isSome
    ∧ (s.to_list ≠ [] → property_get_online s = true)
    ∧ (disconnected_cb s).1.modbus = none
    ∧ (disconnected_cb s).1.io = none
    ∧ (disconnected_cb s).1.to_list = []
    ∧ (disconnected_cb s).2.count Ev.notifyOnline = 1 := by
  refine ⟨rfl, ?_, rfl, rfl, rfl, rfl⟩
  intro hne
  exact (inv_reachable s h).1 hne

/-- Witness for C1 at a reachable online state: a slave with one source after
a fully successful connect attempt. -/
theorem c1_witness :
    property_get_online
      (enable_slave
        (init_slave "k" 1 "n" "tcp://h:1"
          [source_create "/slave_k" "t" "q" "C" 16 1000 false])
        ⟨some 1, true, true, some 2⟩).state = true
    ∧ (disconnected_cb
        (enable_slave
          (init_slave "k" 1 "n" "tcp://h:1"
            [source_create "/slave_k" "t" "q" "C" 16 1000 false])
          ⟨some 1, true, true, some 2⟩).state).1.modbus = none := by
  have h := c1_online_iff_handle _
    (Reachable.step
      (Reachable.init "k" 1 "n" "tcp://h:1"
        [source_create "/slave_k" "t" "q" "C" 16 1000 false])
      (Step.enable _ ⟨some 1, true, true, some 2⟩))
  exact ⟨h.2.1 (by decide), h.2.2.1⟩

/-- C5: the AddSource request is rejected with an invalid-argument reply
unless a name is given, an address other than the 0xffff sentinel is given, a
type signature of exactly one character from the set b, y, q, u, t is given,
and the unit symbol is present in the unit catalog; on success (which also
requires the address to be unclaimed) the new source is added at the head of
the slave's source set and, when the slave is Online (handle present, which
over reachable states coincides with the io-channel check the code performs),
its polling timer is started immediately with the requested interval. -/
theorem c5_add_source_validation (s : SlaveState) (hasUnit : String → Bool)
    (entries : List (String × DictValue)) (acc : ParseAcc)
    (hio : s.io.isSome = s.modbus.isSome)
    (hp : parseDict initAcc entries = some acc) :
    ((acc.name = none ∨ acc.typ = none ∨ acc.unitSym = none
        ∨ acc.address = 65535
        ∨ (∀ ty, acc.typ = some ty → ty.length ≠ 1 ∨ typeSigOk ty = false)
        ∨ (∀ un, acc.unitSym = some un → hasUnit un = false))
      → method_source_add s hasUnit entries = (Reply.invalidArgs, s))
    ∧ (∀ nm ty un, acc.name = some nm → acc.typ = some ty
        → acc.unitSym = some un → acc.address ≠ 65535 → ty.length = 1
        → hasUnit un = true → typeSigOk ty = true
        → (∀ x ∈ s.source_list, x.address ≠ acc.address)
        → (method_source_add s hasUnit entries).1
              = Reply.okPath (source_create s.path nm ty un acc.address acc.interval true).path
          ∧ (method_source_add s hasUnit entries).2.source_list
              = source_create s.path nm ty un acc.address acc.interval true :: s.source_list
          ∧ (s.modbus.isSome = true →
              lookupTimer (method_source_add s hasUnit entries).2.to_list
                  (source_create s.path nm ty un acc.address acc.interval true).path
                = some acc.interval)
          ∧ (s.modbus.isSome = false →
              (method_source_add s hasUnit entries).2.to_list = s.to_list)) := by
  constructor
  · intro hbad
    unfold method_source_add
    rw [hp]
    try dsimp only
    cases hn : acc.name with
    | none => rfl
    | some nm =>
      cases ht : acc.typ with
      | none => rfl
      | some ty =>
        cases hu2 : acc.unitSym with
        | none => rfl
        | some un =>
          try dsimp only
          split_ifs with h1 h2 h3 h4 <;> try rfl
          all_goals exfalso
          all_goals rcases hbad with h | h | h | h | h | h
          all_goals try (rw [hn] at h; cases h)
          all_goals try (rw [ht] at h; cases h)
          all_goals try (rw [hu2] at h; cases h)
          all_goals try exact h1 (Or.inl h)
          all_goals try (rw [h un hu2] at h2; cases h2)
          all_goals rcases h ty ht with hl | hs
          all_goals try exact h1 (Or.inr hl)
          all_goals (rw [hs] at h3; cases h3)
  · intro nm ty un hn ht hu2 haddr hlen hunit hsig hdup
    unfold method_source_add
    rw [hp]
    try dsimp only
    rw [hn, ht, hu2]
    try dsimp only
    have hc1 : ¬(acc.address = 65535 ∨ ty.length ≠ 1) := by
      simp [haddr, hlen]
    have hdup2 : (s.source_list.any fun x => x.address == acc.address) = false := by
      rw [List.any_eq_false]
      intro x hx
      simp [hdup x hx]
    rw [if_neg hc1, if_pos hunit, if_pos hsig, hdup2]
    simp only [Bool.false_eq_true, if_false]
    try dsimp only
    by_cases hio2 : s.io.isSome = true
    · rw [if_pos hio2]
      refine ⟨rfl, ?_, ?_, ?_⟩
      · rw [polling_start_source_list]
      · intro _
        exact lookupTimer_polling_start _ _
      · intro hmf
        rw [hio] at hio2
        rw [hmf] at hio2
        exact Bool.noConfusion hio2
    · rw [if_neg hio2]
      have hiof : s.io.isSome = false := by simpa using hio2
      refine ⟨rfl, rfl, ?_, fun _ => rfl⟩
      intro hmt
      rw [hio] at hiof
      rw [hmt] at hiof
      exact Bool.noConfusion hiof

/-- Witness for C5: a valid AddSource request against an offline slave with
no sources succeeds and returns the new source's object path. -/
theorem c5_witness :
    (method_source_add (init_slave "k" 1 "n" "tcp://h:1" []) (fun _ => true)
        [("Name", DictValue.vStr "Temp1"), ("Type", DictValue.vStr "q"),
         ("Unit", DictValue.vStr "C"), ("Address", DictValue.vU16 16)]).1
      = Reply.okPath
          (source_create (init_slave "k" 1 "n" "tcp://h:1" []).path
            "Temp1" "q" "C" 16 1000 true).path := by
  have h := (c5_add_source_validation (init_slave "k" 1 "n" "tcp://h:1" [])
      (fun _ => true)
      [("Name", DictValue.vStr "Temp1"), ("Type", DictValue.vStr "q"),
       ("Unit", DictValue.vStr "C"), ("Address", DictValue.vU16 16)]
      { name := some "Temp1", typ := some "q", unitSym := some "C",
        address := 16, interval := 1000 }
      rfl (by decide)).2
  exact (h "Temp1" "q" "C" rfl rfl rfl (by decide) (by decide) rfl (by decide)
    (by simp [init_slave])).1

/-- C6: an AddSource request whose address equals an existing sibling
source's address is rejected with an invalid-argument reply, the slave state
(in particular the existing source) is left unmodified, and the uniqueness
check is against the slave's source set: the outcome is the same for every
timer map. -/
theorem c6_duplicate_address_rejected (s : SlaveState)
    (hasUnit : String → Bool) (entries : List (String × DictValue))
    (acc : ParseAcc) (hp : parseDict initAcc entries = some acc) (x : Source)
    (hx : x ∈ s.source_list) (haddr : x.address = acc.address) :
    method_source_add s hasUnit entries = (Reply.invalidArgs, s)
    ∧ ∀ tl, method_source_add { s with to_list := tl } hasUnit entries
        = (Reply.invalidArgs, { s with to_list := tl }) := by
  have key : ∀ s2 : SlaveState, s2.source_list = s.source_list →
      method_source_add s2 hasUnit entries = (Reply.invalidArgs, s2) := by
    intro s2 hs2
    unfold method_source_add
    rw [hp]
    try dsimp only
    cases hn : acc.name with
    | none => rfl
    | some nm =>
      cases ht : acc.typ with
      | none => rfl
      | some ty =>
        cases hu2 : acc.unitSym with
        | none => rfl
        | some un =>
          try dsimp only
          have hdup2 : (s2.source_list.any fun x2 => x2.address == acc.address) = true := by
            rw [hs2]
            exact List.any_eq_true.mpr ⟨x, hx, by simp [haddr]⟩
          split_ifs <;> try rfl
          all_goals try simp_all
  exact ⟨key s rfl, fun tl => key { s with to_list := tl } rfl⟩

/-- Witness for C6: adding address 0x0010 twice; the second request is
rejected and the slave is unchanged. -/
theorem c6_witness :
    method_source_add
      { init_slave "k" 1 "n" "tcp://h:1" [] with
          source_list := [source_create "/slave_k" "Temp1" "q" "C" 16 1000 true] }
      (fun _ => true)
      [("Name", DictValue.vStr "Temp2"), ("Type", DictValue.vStr "q"),
       ("Unit", DictValue.vStr "C"), ("Address", DictValue.vU16 16)]
      = (Reply.invalidArgs,
        { init_slave "k" 1 "n" "tcp://h:1" [] with
            source_list := [source_create "/slave_k" "Temp1" "q" "C" 16 1000 true] }) := by
  have h := c6_duplicate_address_rejected
    { init_slave "k" 1 "n" "tcp://h:1" [] with
        source_list := [source_create "/slave_k" "Temp1" "q" "C" 16 1000 true] }
    (fun _ => true)
    [("Name", DictValue.vStr "Temp2"), ("Type", DictValue.vStr "q"),
     ("Unit", DictValue.vStr "C"), ("Address", DictValue.vU16 16)]
    { name := some "Temp2", typ := some "q", unitSym := some "C",
      address := 16, interval := 1000 }
    (by decide)
    (source_create "/slave_k" "Temp1" "q" "C" 16 1000 true)
    (by simp) (by decide)
  exact h.1

/-- C10: if the AddSource dictionary omits the PollingInterval key, any
source the request creates has the default polling interval of 1000 ms; and
any dictionary key other than Name, Type, Unit, Address, PollingInterval
causes the whole request to be rejected with an invalid-argument reply
before any source is created (the state is returned unchanged). -/
theorem c10_defaults_and_unknown_keys (s : SlaveState)
    (hasUnit : String → Bool) (entries : List (String × DictValue)) :
    ((∀ e ∈ entries, e.1 ≠ "PollingInterval") →
      ∀ src ∈ (method_source_add s hasUnit entries).2.source_list,
        src ∉ s.source_list → src.interval = 1000)
    ∧ ((∃ e ∈ entries,
          e.1 ∉ (["Name", "Type", "Unit", "Address", "PollingInterval"] : List String)) →
        method_source_add s hasUnit entries = (Reply.invalidArgs, s)) := by
  constructor
  · intro hk src hsrc hnot
    rcases msa_source_list_shape s hasUnit entries with hflat | ⟨acc, nm, ty, un, hp, heq⟩
    · rw [hflat] at hsrc
      exact absurd hsrc hnot
    · rw [heq] at hsrc
      rcases List.mem_cons.mp hsrc with rfl | hmem
      · show acc.interval = 1000
        rw [parseDict_interval entries initAcc acc hk hp]
        rfl
      · exact absurd hmem hnot
  · intro h
    unfold method_source_add
    rw [parseDict_badkey entries initAcc h]

/-- Witness for C10: a request without PollingInterval creates a source with
interval 1000; a request with an unknown key is rejected unchanged. -/
theorem c10_witness :
    (source_create (init_slave "k" 1 "n" "tcp://h:1" []).path
        "Temp1" "q" "C" 16 1000 true).interval = 1000
    ∧ method_source_add (init_slave "k" 1 "n" "tcp://h:1" []) (fun _ => true)
        [("Bogus", DictValue.vStr "z")]
        = (Reply.invalidArgs, init_slave "k" 1 "n" "tcp://h:1" []) := by
  constructor
  · exact (c10_defaults_and_unknown_keys (init_slave "k" 1 "n" "tcp://h:1" [])
      (fun _ => true)
      [("Name", DictValue.vStr "Temp1"), ("Type", DictValue.vStr "q"),
       ("Unit", DictValue.vStr "C"), ("Address", DictValue.vU16 16)]).1
      (by decide) _ (by decide) (by decide)
  · exact (c10_defaults_and_unknown_keys (init_slave "k" 1 "n" "tcp://h:1" [])
      (fun _ => true) [("Bogus", DictValue.vStr "z")]).2 (by decide)
